import Mathlib

/-!
Verification of the graph-construction and integrity-check core of the
repository (src/scripts/create_graph.py and src/scripts/integrity_check.py)
against its specification.

The Python code is shallowly embedded: JSON documents become the `JSON`
inductive, Python runtime errors become the `PyErr` type, and each fallible
Python expression becomes an `Except PyErr` computation.  Python dictionaries
are modelled as association lists kept in insertion order (the iteration
order of a CPython dict), with duplicate keys collapsed the way a dict
comprehension collapses them (last value wins, first position kept).
-/

/-- A decoded JSON value, as produced by Python's json.load. -/
inductive JSON where
  | null
  | bool (b : Bool)
  | num (n : Int)
  | str (s : String)
  | arr (elems : List JSON)
  | obj (fields : List (String × JSON))
  deriving Repr

mutual

/-- Decidable equality for JSON values (the derive handler does not support
this nested inductive, so the three mutually recursive cases are spelled
out). -/
def JSON.decEq : (a b : JSON) → Decidable (a = b)
  | .null, .null => .isTrue rfl
  | .bool a, .bool b =>
    if h : a = b then .isTrue (by rw [h]) else .isFalse (fun he => h (by cases he; rfl))
  | .num a, .num b =>
    if h : a = b then .isTrue (by rw [h]) else .isFalse (fun he => h (by cases he; rfl))
  | .str a, .str b =>
    if h : a = b then .isTrue (by rw [h]) else .isFalse (fun he => h (by cases he; rfl))
  | .arr a, .arr b =>
    match JSON.decEqList a b with
    | .isTrue h => .isTrue (by rw [h])
    | .isFalse h => .isFalse (fun he => h (by cases he; rfl))
  | .obj a, .obj b =>
    match JSON.decEqFields a b with
    | .isTrue h => .isTrue (by rw [h])
    | .isFalse h => .isFalse (fun he => h (by cases he; rfl))
  | .null, .bool _ => .isFalse nofun
  | .null, .num _ => .isFalse nofun
  | .null, .str _ => .isFalse nofun
  | .null, .arr _ => .isFalse nofun
  | .null, .obj _ => .isFalse nofun
  | .bool _, .null => .isFalse nofun
  | .bool _, .num _ => .isFalse nofun
  | .bool _, .str _ => .isFalse nofun
  | .bool _, .arr _ => .isFalse nofun
  | .bool _, .obj _ => .isFalse nofun
  | .num _, .null => .isFalse nofun
  | .num _, .bool _ => .isFalse nofun
  | .num _, .str _ => .isFalse nofun
  | .num _, .arr _ => .isFalse nofun
  | .num _, .obj _ => .isFalse nofun
  | .str _, .null => .isFalse nofun
  | .str _, .bool _ => .isFalse nofun
  | .str _, .num _ => .isFalse nofun
  | .str _, .arr _ => .isFalse nofun
  | .str _, .obj _ => .isFalse nofun
  | .arr _, .null => .isFalse nofun
  | .arr _, .bool _ => .isFalse nofun
  | .arr _, .num _ => .isFalse nofun
  | .arr _, .str _ => .isFalse nofun
  | .arr _, .obj _ => .isFalse nofun
  | .obj _, .null => .isFalse nofun
  | .obj _, .bool _ => .isFalse nofun
  | .obj _, .num _ => .isFalse nofun
  | .obj _, .str _ => .isFalse nofun
  | .obj _, .arr _ => .isFalse nofun

/-- Decidable equality for lists of JSON values. -/
def JSON.decEqList : (a b : List JSON) → Decidable (a = b)
  | [], [] => .isTrue rfl
  | [], _ :: _ => .isFalse nofun
  | _ :: _, [] => .isFalse nofun
  | x :: xs, y :: ys =>
    match JSON.decEq x y, JSON.decEqList xs ys with
    | .isTrue h1, .isTrue h2 => .isTrue (by rw [h1, h2])
    | .isFalse h1, _ => .isFalse (fun he => h1 (by cases he; rfl))
    | _, .isFalse h2 => .isFalse (fun he => h2 (by cases he; rfl))

/-- Decidable equality for JSON object field lists. -/
def JSON.decEqFields : (a b : List (String × JSON)) → Decidable (a = b)
  | [], [] => .isTrue rfl
  | [], _ :: _ => .isFalse nofun
  | _ :: _, [] => .isFalse nofun
  | (k1, v1) :: xs, (k2, v2) :: ys =>
    match String.decEq k1 k2, JSON.decEq v1 v2, JSON.decEqFields xs ys with
    | .isTrue h0, .isTrue h1, .isTrue h2 => .isTrue (by rw [h0, h1, h2])
    | .isFalse h0, _, _ => .isFalse (fun he => h0 (by cases he; rfl))
    | _, .isFalse h1, _ => .isFalse (fun he => h1 (by cases he; rfl))
    | _, _, .isFalse h2 => .isFalse (fun he => h2 (by cases he; rfl))

end

instance : DecidableEq JSON := JSON.decEq

/-- The Python exceptions the embedded scripts can raise.  `valueErr` covers
both the explicit ValueError raised by read_json and the ValueError raised by
a failing int()/float() conversion. -/
inductive PyErr where
  | indexErr
  | keyErr
  | typeErr
  | attributeErr
  | valueErr
  deriving DecidableEq, Repr

/-- Decidable equality for Except values with decidable components. -/
def Except.decEq {ε α : Type} [DecidableEq ε] [DecidableEq α] :
    (a b : Except ε α) → Decidable (a = b)
  | .ok x, .ok y =>
    if h : x = y then .isTrue (by rw [h]) else .isFalse (fun he => h (by cases he; rfl))
  | .error x, .error y =>
    if h : x = y then .isTrue (by rw [h]) else .isFalse (fun he => h (by cases he; rfl))
  | .ok _, .error _ => .isFalse nofun
  | .error _, .ok _ => .isFalse nofun

instance {ε α : Type} [DecidableEq ε] [DecidableEq α] : DecidableEq (Except ε α) :=
  Except.decEq

/-- A Python dict whose keys and values are JSON values, in insertion order. -/
abbrev PyDict := List (JSON × JSON)

/-- Python truthiness of a JSON value (used by the `if sublist` filter). -/
def pyTruthy : JSON → Bool
  | .null => false
  | .bool b => b
  | .num n => n != 0
  | .str s => s != ""
  | .arr xs => !xs.isEmpty
  | .obj fs => !fs.isEmpty

/-- Contiguous-sublist test on character lists (Python substring `in`). -/
def strInfix (needle : List Char) : List Char → Bool
  | [] => needle.isEmpty
  | c :: t => needle.isPrefixOf (c :: t) || strInfix needle t

/-- Python's `needle in container` for a string literal needle: key lookup in
a dict, element equality in a list, substring test in a string, and a
TypeError on the remaining JSON values. -/
def pyContains (needle : String) : JSON → Except PyErr Bool
  | .obj fields => .ok (fields.any (fun p => p.1 == needle))
  | .arr elems => .ok (elems.any (fun e => e == JSON.str needle))
  | .str s => .ok (strInfix needle.data s.data)
  | _ => .error .typeErr

/-- Python subscript `x[key]` with a string key. -/
def pyGetItem (j : JSON) (key : String) : Except PyErr JSON :=
  match j with
  | .obj fields =>
    match fields.lookup key with
    | some v => .ok v
    | none => .error .keyErr
  | _ => .error .typeErr

/-- Python subscript `x[0]`. -/
def pyIndexZero : JSON → Except PyErr JSON
  | .arr [] => .error .indexErr
  | .arr (x :: _) => .ok x
  | .str s =>
    match s.data with
    | [] => .error .indexErr
    | c :: _ => .ok (.str (String.mk [c]))
  | .obj _ => .error .keyErr
  | _ => .error .typeErr

/-- Python's `x.get(key, default)` dict method; AttributeError when the
receiver is not a dict. -/
def pyGet (j : JSON) (key : String) (dflt : JSON) : Except PyErr JSON :=
  match j with
  | .obj fields => .ok ((fields.lookup key).getD dflt)
  | _ => .error .attributeErr

/-- Python iteration `for x in j`: list elements, string characters, or dict
keys; TypeError otherwise. -/
def pyIterate : JSON → Except PyErr (List JSON)
  | .arr xs => .ok xs
  | .str s => .ok (s.data.map (fun c => .str (String.mk [c])))
  | .obj fs => .ok (fs.map (fun p => .str p.1))
  | _ => .error .typeErr

/-- One step of a Python dict comprehension: on a duplicate key the later
value wins while the key keeps its first position. -/
def pyDictInsert (d : PyDict) (k v : JSON) : PyDict :=
  if d.any (fun p => p.1 == k) then
    d.map (fun p => if p.1 == k then (p.1, v) else p)
  else d ++ [(k, v)]

/-- Python `d.get(k, dflt)` on an already-built PyDict (total). -/
def dictGetD (d : PyDict) (k dflt : JSON) : JSON :=
  ((d.find? (fun p => p.1 == k)).map Prod.snd).getD dflt

/-- Decimal digits of a natural number, most significant first; the first
argument is structural fuel so that the definition reduces in the kernel. -/
def natDigitsAux : Nat → Nat → List Char
  | 0, _ => []
  | fuel + 1, n =>
    if n = 0 then [] else natDigitsAux fuel (n / 10) ++ [Char.ofNat (48 + n % 10)]

/-- Decimal rendering of a natural number. -/
def natStr (n : Nat) : String :=
  if n = 0 then "0" else String.mk (natDigitsAux (n + 1) n)

/-- Decimal rendering of an integer, as Python's str(int). -/
def intStr : Int → String
  | .ofNat n => natStr n
  | .negSucc n => "-" ++ natStr (n + 1)

mutual

/-- Python's repr of a JSON value.  String escaping inside repr is not
modelled (no input of interest contains quotes or control characters). -/
def pyRepr : JSON → String
  | .null => "None"
  | .bool true => "True"
  | .bool false => "False"
  | .num n => intStr n
  | .str s => "'" ++ s ++ "'"
  | .arr xs => "[" ++ pyReprSeq xs ++ "]"
  | .obj fs => "\x7b" ++ pyReprFields fs ++ "\x7d"

/-- Comma-separated reprs of the elements of a Python list. -/
def pyReprSeq : List JSON → String
  | [] => ""
  | [x] => pyRepr x
  | x :: y :: t => pyRepr x ++ ", " ++ pyReprSeq (y :: t)

/-- Comma-separated `'key': value` reprs of the entries of a Python dict. -/
def pyReprFields : List (String × JSON) → String
  | [] => ""
  | [(k, v)] => "'" ++ k ++ "': " ++ pyRepr v
  | (k, v) :: y :: t => "'" ++ k ++ "': " ++ pyRepr v ++ ", " ++ pyReprFields (y :: t)

end

/-- Python's str() of a JSON value. -/
def pyStr : JSON → String
  | .str s => s
  | j => pyRepr j

/-- Numeric value of a list of decimal digit characters. -/
def digitsToNat (cs : List Char) : Nat :=
  cs.foldl (fun a c => a * 10 + (c.toNat - 48)) 0

/-- ASCII whitespace, stripped from both ends by Python's int() conversion
(non-ASCII Unicode whitespace is not modelled; none occurs in the data). -/
def pyAsciiWs (c : Char) : Bool :=
  c = ' ' || c = '\t' || c = '\n' || c = '\r' || c = '\x0b' || c = '\x0c'

/-- Strip surrounding ASCII whitespace, as Python's int() does. -/
def stripWs (cs : List Char) : List Char :=
  ((cs.dropWhile pyAsciiWs).reverse.dropWhile pyAsciiWs).reverse

/-- Tail of Python's decimal digit run: digits, with a single underscore
allowed only between two digits. -/
def intTail : List Char → Bool
  | [] => true
  | d :: rest =>
    if d = '_' then
      match rest with
      | [] => false
      | e :: rest2 => e.isDigit && intTail rest2
    else d.isDigit && intTail rest

/-- Python's decimal digit run: at least one digit, single underscores
allowed between digits.  Non-ASCII decimal digits, which int() would also
accept, are not modelled (none occur in the scraped data). -/
def intDigits : List Char → Bool
  | [] => false
  | d :: rest => d.isDigit && intTail rest

/-- Unsigned part of Python's int(s): a digit run per intDigits, with the
underscore separators dropped before computing the value. -/
def intCore (ds : List Char) : Except PyErr Int :=
  if intDigits ds then .ok (digitsToNat (ds.filter (fun c => c ≠ '_')) : Nat)
  else .error .valueErr

/-- Python's int(s) for base-10 string literals: surrounding ASCII
whitespace is stripped, then an optional sign precedes a digit run with
single underscores between digits. -/
def pyIntChars (cs : List Char) : Except PyErr Int :=
  match stripWs cs with
  | [] => .error .valueErr
  | c :: rest =>
    if c = '-' then (intCore rest).map (fun n => -n)
    else if c = '+' then intCore rest
    else intCore (c :: rest)

/-- An exact decimal value, numerator over a positive power of ten.  Python's
float is an IEEE double; the scripts only feed it short decimal literals and
immediately truncate the scaled result to an integer, and on every such input
the exact-rational result coincides with the IEEE one, so the embedding keeps
the value exact. -/
structure Decimal where
  num : Int
  den : Nat
  deriving DecidableEq, Repr

/-- Integer truncation toward zero, as Python's int() applied to a float. -/
def Decimal.trunc (d : Decimal) : Int :=
  Int.tdiv d.num (d.den : Int)

/-- Split a character list on a separator character (Python str.split). -/
def splitOnChar (sep : Char) : List Char → List (List Char)
  | [] => [[]]
  | c :: cs =>
    match splitOnChar sep cs with
    | [] => [[c]]
    | g :: gs => if c = sep then [] :: g :: gs else (c :: g) :: gs

/-- Unsigned part of Python's float(s): digits with at most one decimal
point and at least one digit overall. -/
def floatCore (ds : List Char) : Except PyErr Decimal :=
  match splitOnChar '.' ds with
  | [a] =>
    if a.isEmpty || !a.all Char.isDigit then .error .valueErr
    else .ok ⟨(digitsToNat a : Nat), 1⟩
  | [a, b] =>
    if (a.isEmpty && b.isEmpty) || !a.all Char.isDigit || !b.all Char.isDigit then
      .error .valueErr
    else .ok ⟨(digitsToNat a * 10 ^ b.length + digitsToNat b : Nat), 10 ^ b.length⟩
  | _ => .error .valueErr

/-- Python's float(s) for plain decimal literals: an optional sign, then
digits with at most one decimal point and at least one digit overall.
Exponent notation, inf/nan and surrounding whitespace are not modelled (none
occur in the scraped data). -/
def pyFloatChars (cs : List Char) : Except PyErr Decimal :=
  match cs with
  | [] => .error .valueErr
  | c :: rest =>
    if c = '-' then (floatCore rest).map (fun d => ⟨-d.num, d.den⟩)
    else if c = '+' then floatCore rest
    else floatCore (c :: rest)

/-- Embedding of parse_stat (src/scripts/create_graph.py, lines 21-27):
stringify the raw value, drop every comma, then dispatch on a *containment*
test for 'K' and 'M'; an empty remainder yields 0, anything else goes through
int(). -/
def parse_stat (value : JSON) : Except PyErr Int :=
  let v := (pyStr value).data.filter (fun c => c ≠ ',')
  if v.contains 'K' then
    (pyFloatChars (v.filter (fun c => c ≠ 'K'))).map (fun d => Decimal.trunc ⟨d.num * 1000, d.den⟩)
  else if v.contains 'M' then
    (pyFloatChars (v.filter (fun c => c ≠ 'M'))).map (fun d => Decimal.trunc ⟨d.num * 1000000, d.den⟩)
  else if v.isEmpty then .ok 0
  else pyIntChars v

/-- Modelled from the spec, section 4.1, for comparison with parse_stat: strip
separators; if the string *ends with* K or M, parse the numeric prefix as a
floating value, multiply by the magnitude and truncate; an empty string gives
0; any other value is parsed as an integer. -/
def parse_stat_spec (value : JSON) : Except PyErr Int :=
  let v := (pyStr value).data.filter (fun c => c ≠ ',')
  if v.getLast? = some 'K' then
    (pyFloatChars v.dropLast).map (fun d => Decimal.trunc ⟨d.num * 1000, d.den⟩)
  else if v.getLast? = some 'M' then
    (pyFloatChars v.dropLast).map (fun d => Decimal.trunc ⟨d.num * 1000000, d.den⟩)
  else if v.isEmpty then .ok 0
  else pyIntChars v

/-- Category-value normalization shared by read_json and process_threads:
a string is split on commas (Python str.split(','), which does not trim
whitespace), any other value passes through unchanged. -/
def normalizeCategories (c : JSON) : JSON :=
  match c with
  | .str s => .arr ((splitOnChar ',' s.data).map (fun g => .str (String.mk g)))
  | other => other

/-- Category branch of read_json: `{item['id']: item['categories'].split(',')
if isinstance(item['categories'], str) else item['categories'] for item in
data}` (the dict comprehension evaluates the key before the value). -/
def buildCategory (items : List JSON) : Except PyErr PyDict :=
  items.foldlM (fun d item => do
    let k ← pyGetItem item "id"
    let c ← pyGetItem item "categories"
    pure (pyDictInsert d k (normalizeCategories c))) []

/-- Summary branch of read_json: `{item['id']: item['summary'] for item in
data}`. -/
def buildSummary (items : List JSON) : Except PyErr PyDict :=
  items.foldlM (fun d item => do
    let k ← pyGetItem item "id"
    let s ← pyGetItem item "summary"
    pure (pyDictInsert d k s)) []

/-- The identifier/value pair one item contributes in the category branch. -/
def categoryPair (item : JSON) : Except PyErr (JSON × JSON) := do
  let k ← pyGetItem item "id"
  let c ← pyGetItem item "categories"
  pure (k, normalizeCategories c)

/-- The identifier/value pair one item contributes in the summary branch. -/
def summaryPair (item : JSON) : Except PyErr (JSON × JSON) := do
  let k ← pyGetItem item "id"
  let s ← pyGetItem item "summary"
  pure (k, s)

/-- Thread branch of read_json: `{sublist[0]['id']: sublist for sublist in
data if sublist}` — falsy (in particular empty) inner values are skipped. -/
def buildThread (items : List JSON) : Except PyErr PyDict :=
  items.foldlM (fun d sub =>
    if pyTruthy sub then do
      let f ← pyIndexZero sub
      let k ← pyGetItem f "id"
      pure (pyDictInsert d k sub)
    else pure d) []

/-- Embedding of read_json (src/scripts/create_graph.py, lines 4-19), after
json decoding: a non-list document raises the script's ValueError; for a list
the first element is probed with `'categories' in data[0]`, which raises
IndexError on an empty list before any classification. -/
def read_json (data : JSON) : Except PyErr PyDict :=
  match data with
  | .arr items =>
    match items with
    | [] => .error .indexErr
    | first :: _ => do
      if ← pyContains "categories" first then buildCategory items
      else if ← pyContains "summary" first then buildSummary items
      else buildThread items
  | _ => .error .valueErr

/-- The related_threads accumulator: referenced identifier, then the list of
referencing thread identifiers in append order. -/
abbrev RelMap := List (JSON × List JSON)

/-- `related_threads.setdefault(k, []).append(v)`: append to the entry's list
in place, creating the entry at the end of the dict when absent. -/
def relAppend (m : RelMap) (k v : JSON) : RelMap :=
  if m.any (fun p => p.1 == k) then
    m.map (fun p => if p.1 == k then (p.1, p.2 ++ [v]) else p)
  else m ++ [(k, [v])]

/-- `related_threads.get(k, [])`. -/
def relGet (m : RelMap) (k : JSON) : List JSON :=
  ((m.find? (fun p => p.1 == k)).map Prod.snd).getD []

/-- Body of the embed scan (process_threads lines 34-39) for one tweet:
`embed = tweet.get("metadata", {}).get("embed", {})`, then when the type tag
equals "embed", record the *thread's* first tweet id against the embedded
id.  Following the source's evaluation order, `thread[0]['id']` is evaluated
before `embed["id"]`. -/
def scanTweet (thread : JSON) (m : RelMap) (tweet : JSON) : Except PyErr RelMap := do
  let md ← pyGet tweet "metadata" (.obj [])
  let embed ← pyGet md "embed" (.obj [])
  let ty ← pyGet embed "type" .null
  if ty == .str "embed" then do
    let f ← pyIndexZero thread
    let parent ← pyGetItem f "id"
    let eid ← pyGetItem embed "id"
    pure (relAppend m eid parent)
  else pure m

/-- Embed scan over the tweets of one thread. -/
def scanThread (m : RelMap) (thread : JSON) : Except PyErr RelMap := do
  let tweets ← pyIterate thread
  tweets.foldlM (scanTweet thread) m

/-- The related_threads dict built by process_threads lines 32-39, scanning
`threads_data.values()` in order. -/
def buildRelated (threads_data : PyDict) : Except PyErr RelMap :=
  threads_data.foldlM (fun m kv => scanThread m kv.2) []

/-- The identifier recorded as the referencing node for a thread:
`thread[0]['id']` — the first tweet's id, not the embedding tweet's. -/
def threadFirstId (thread : JSON) : Except PyErr JSON := do
  let f ← pyIndexZero thread
  pyGetItem f "id"

/-- The embedded identifier one tweet contributes:
`tweet.get("metadata", {}).get("embed", {})`, and that descriptor's "id"
when its "type" equals "embed", none otherwise. -/
def tweetEmbedId (tweet : JSON) : Except PyErr (Option JSON) := do
  let md ← pyGet tweet "metadata" (.obj [])
  let embed ← pyGet md "embed" (.obj [])
  let ty ← pyGet embed "type" .null
  if ty == .str "embed" then
    (pyGetItem embed "id").map some
  else pure none

/-- Number of edges (0 or 1) one tweet records from embedded identifier eid
to referencing thread identifier p. -/
def tweetContrib (thread tweet eid p : JSON) : Nat :=
  if tweetEmbedId tweet = .ok (some eid) ∧ threadFirstId thread = .ok p then 1 else 0

/-- Number of edges one whole thread records from eid to p. -/
def threadContrib (thread eid p : JSON) : Nat :=
  match pyIterate thread with
  | .ok tweets => (tweets.map (fun t => tweetContrib thread t eid p)).sum
  | .error _ => 0

/-- The per-thread stats accumulator of process_threads, one integer per
tracked stat key. -/
structure Stats where
  replies : Int
  likes : Int
  bookmarks : Int
  views : Int
  deriving DecidableEq, Repr

/-- Componentwise addition of stats accumulators. -/
def Stats.add (a b : Stats) : Stats :=
  ⟨a.replies + b.replies, a.likes + b.likes,
   a.bookmarks + b.bookmarks, a.views + b.views⟩

instance : Add Stats := ⟨Stats.add⟩

instance : Zero Stats := ⟨⟨0, 0, 0, 0⟩⟩

instance : AddCommMonoid Stats where
  add_assoc a b c := by
    cases a; cases b; cases c
    show Stats.add (Stats.add _ _) _ = Stats.add _ (Stats.add _ _)
    simp only [Stats.add, Stats.mk.injEq]
    omega
  zero_add a := by
    cases a
    show Stats.add ⟨0, 0, 0, 0⟩ _ = _
    simp only [Stats.add, Stats.mk.injEq]
    omega
  add_zero a := by
    cases a
    show Stats.add _ ⟨0, 0, 0, 0⟩ = _
    simp only [Stats.add, Stats.mk.injEq]
    omega
  add_comm a b := by
    cases a; cases b
    show Stats.add _ _ = Stats.add _ _
    simp only [Stats.add, Stats.mk.injEq]
    omega
  nsmul := nsmulRec

/-- One pass of the stats loop (process_threads lines 42-45) for one tweet:
`stats = tweet.get("stats", {})` and then, for the four keys in dict order,
`stats_total[key] += parse_stat(stats.get(key, 0))`. -/
def addTweetStats (acc : Stats) (tweet : JSON) : Except PyErr Stats := do
  let stats ← pyGet tweet "stats" (.obj [])
  let r ← parse_stat (← pyGet stats "replies" (.num 0))
  let l ← parse_stat (← pyGet stats "likes" (.num 0))
  let b ← parse_stat (← pyGet stats "bookmarks" (.num 0))
  let v ← parse_stat (← pyGet stats "views" (.num 0))
  pure ⟨acc.replies + r, acc.likes + l, acc.bookmarks + b, acc.views + v⟩

/-- The parsed stats of a single tweet, starting from zero. -/
def tweetStats (tweet : JSON) : Except PyErr Stats :=
  addTweetStats 0 tweet

/-- The full stats aggregation of one thread (process_threads lines 41-45). -/
def aggregateStats (thread : JSON) : Except PyErr Stats := do
  let tweets ← pyIterate thread
  tweets.foldlM addTweetStats 0

/-- The `cat_list` computation of process_threads lines 48-51:
`categories.get(thread_id, [])`, split on commas when it is a string. -/
def catListFor (categories : PyDict) (thread_id : JSON) : JSON :=
  normalizeCategories (dictGetD categories thread_id (.arr []))

/-- One output record appended to graph_data (process_threads lines 55-65). -/
structure GraphNode where
  id : JSON
  url : String
  replies : Int
  likes : Int
  bookmarks : Int
  views : Int
  summary : JSON
  categories : JSON
  related_threads : List JSON
  deriving DecidableEq, Repr

/-- Assembly of the GraphNode for one entry of threads_data (the body of the
loop at process_threads lines 40-65). -/
def mkNode (rel : RelMap) (summaries categories : PyDict) (kv : JSON × JSON) :
    Except PyErr GraphNode := do
  let st ← aggregateStats kv.2
  pure
    { id := kv.1
      url := "https://twitter.com/Recuenco/status/" ++ pyStr kv.1
      replies := st.replies
      likes := st.likes
      bookmarks := st.bookmarks
      views := st.views
      summary := dictGetD summaries kv.1 (.str "")
      categories := catListFor categories kv.1
      related_threads := (relGet rel kv.1).filter (fun rid => rid != kv.1) }

/-- Embedding of process_threads (src/scripts/create_graph.py, lines 29-67). -/
def process_threads (threads_data summaries categories : PyDict) :
    Except PyErr (List GraphNode) := do
  let rel ← buildRelated threads_data
  threads_data.mapM (mkNode rel summaries categories)

/-- One line of the integrity report: an artifact name with its non-empty set
of missing identifiers. -/
structure ReportLine where
  name : String
  missing : Finset String
  deriving DecidableEq

/-- Outcome of the integrity check: either the consistency confirmation or
the per-artifact missing-identifier lines, in file order. -/
inductive Report where
  | consistent
  | missingFrom (lines : List ReportLine)
  deriving DecidableEq

/-- Union of a list of identifier sets (`set.union(*all_ids_sets)`). -/
def unionAll (sets : List (Finset String)) : Finset String :=
  sets.foldl (fun a s => a ∪ s) ∅

/-- Intersection of a non-empty list of identifier sets
(`set.intersection(*all_ids_sets)`). -/
def interAll (first : Finset String) (rest : List (Finset String)) : Finset String :=
  rest.foldl (fun a s => a ∩ s) first

/-- Embedding of the comparison and reporting logic of integrity_check.py's
main (lines 20-39), over the artifact-name/identifier-set pairs its file
readers produce.  The unbound `set.union(*...)`/`set.intersection(*...)`
calls need at least one set, so the first artifact is a separate argument
(the script passes four artifacts). -/
def integrity_report (first : String × Finset String)
    (rest : List (String × Finset String)) : Report :=
  if (interAll first.2 (rest.map Prod.snd)).card =
      (unionAll ((first :: rest).map Prod.snd)).card then
    .consistent
  else
    .missingFrom ((first :: rest).filterMap (fun f =>
      if unionAll ((first :: rest).map Prod.snd) \ f.2 = ∅ then none
      else some ⟨f.1, unionAll ((first :: rest).map Prod.snd) \ f.2⟩))

/-! Supporting lemmas for the stat-parser claims. -/

theorem alpha_not_digit {c : Char} (h : c.isAlpha = true) : c.isDigit = false := by
  simp only [Char.isAlpha, Char.isUpper, Char.isLower, Bool.or_eq_true, Bool.and_eq_true,
    decide_eq_true_eq] at h
  have h2 : (65 ≤ c.val.toNat ∧ c.val.toNat ≤ 90) ∨
      (97 ≤ c.val.toNat ∧ c.val.toNat ≤ 122) := h
  cases hd : c.isDigit
  · rfl
  · exfalso
    simp only [Char.isDigit, Bool.and_eq_true, decide_eq_true_eq] at hd
    have hd2 : 48 ≤ c.val.toNat ∧ c.val.toNat ≤ 57 := hd
    omega

theorem mem_dropWhile_of_neg {α : Type} {c : α} {p : α → Bool} :
    ∀ {l : List α}, c ∈ l → p c = false → c ∈ l.dropWhile p
  | [], h, _ => absurd h (List.not_mem_nil c)
  | x :: t, h, hp => by
    rw [List.dropWhile_cons]
    cases hx : p x with
    | true =>
      simp only [if_pos rfl]
      rcases List.mem_cons.mp h with he | he
      · rw [← he] at hx
        rw [hx] at hp
        cases hp
      · exact mem_dropWhile_of_neg he hp
    | false =>
      simp only [Bool.false_eq_true, if_false]
      exact h

theorem mem_stripWs {c : Char} {l : List Char} (hmem : c ∈ l)
    (hws : pyAsciiWs c = false) : c ∈ stripWs l := by
  unfold stripWs
  rw [List.mem_reverse]
  apply mem_dropWhile_of_neg _ hws
  rw [List.mem_reverse]
  exact mem_dropWhile_of_neg hmem hws

theorem intTail_false {c : Char} (hdig : c.isDigit = false) (hu : c ≠ '_') :
    ∀ rest : List Char, c ∈ rest → intTail rest = false
  | [], h => absurd h (List.not_mem_nil c)
  | d :: rest, h => by
    unfold intTail
    by_cases hd : d = '_'
    · rw [if_pos hd]
      cases rest with
      | nil =>
        exfalso
        rcases List.mem_cons.mp h with he | he
        · exact hu (he.trans hd)
        · exact absurd he (List.not_mem_nil c)
      | cons e rest2 =>
        show (e.isDigit && intTail rest2) = false
        rcases List.mem_cons.mp h with he | he
        · exact absurd (he.trans hd) hu
        · rcases List.mem_cons.mp he with he2 | he2
          · rw [← he2, hdig]
            rfl
          · rw [intTail_false hdig hu rest2 he2]
            simp
    · rw [if_neg hd]
      rcases List.mem_cons.mp h with he | he
      · rw [← he, hdig]
        rfl
      · rw [intTail_false hdig hu rest he]
        simp

theorem intDigits_false {c : Char} {ds : List Char} (hmem : c ∈ ds)
    (hdig : c.isDigit = false) (hu : c ≠ '_') : intDigits ds = false := by
  cases ds with
  | nil => rfl
  | cons d rest =>
    show (d.isDigit && intTail rest) = false
    rcases List.mem_cons.mp hmem with he | he
    · rw [← he, hdig]
      rfl
    · rw [intTail_false hdig hu rest he]
      simp

theorem intCore_error {c : Char} {ds : List Char} (hmem : c ∈ ds)
    (hdig : c.isDigit = false) (hu : c ≠ '_') :
    intCore ds = Except.error .valueErr := by
  unfold intCore
  rw [intDigits_false hmem hdig hu]
  rfl

theorem pyIntChars_error_of_alpha {cs : List Char} {c : Char}
    (hmem : c ∈ cs) (ha : c.isAlpha = true) :
    pyIntChars cs = Except.error .valueErr := by
  have hdig : c.isDigit = false := alpha_not_digit ha
  have hws : pyAsciiWs c = false := by
    have h1 : c ≠ ' ' := fun he => absurd (he ▸ ha) (by decide)
    have h2 : c ≠ '\t' := fun he => absurd (he ▸ ha) (by decide)
    have h3 : c ≠ '\n' := fun he => absurd (he ▸ ha) (by decide)
    have h4 : c ≠ '\r' := fun he => absurd (he ▸ ha) (by decide)
    have h5 : c ≠ '\x0b' := fun he => absurd (he ▸ ha) (by decide)
    have h6 : c ≠ '\x0c' := fun he => absurd (he ▸ ha) (by decide)
    simp [pyAsciiWs, h1, h2, h3, h4, h5, h6]
  have hu : c ≠ '_' := fun he => absurd (he ▸ ha) (by decide)
  have hminus : c ≠ '-' := fun he => absurd (he ▸ ha) (by decide)
  have hplus : c ≠ '+' := fun he => absurd (he ▸ ha) (by decide)
  have hs : c ∈ stripWs cs := mem_stripWs hmem hws
  cases hsw : stripWs cs with
  | nil =>
    rw [hsw] at hs
    exact absurd hs (List.not_mem_nil c)
  | cons d rest =>
    rw [hsw] at hs
    by_cases hdm : d = '-'
    · have hcr : c ∈ rest := by
        rcases List.mem_cons.mp hs with h | h
        · exact absurd (h.trans hdm) hminus
        · exact h
      simp [pyIntChars, hsw, hdm, intCore_error hcr hdig hu, Except.map]
    · by_cases hdp : d = '+'
      · have hcr : c ∈ rest := by
          rcases List.mem_cons.mp hs with h | h
          · exact absurd (h.trans hdp) hplus
          · exact h
        simp [pyIntChars, hsw, hdm, hdp, intCore_error hcr hdig hu]
      · simp [pyIntChars, hsw, hdm, hdp, intCore_error hs hdig hu]

theorem mem_of_getLast_some {α : Type} {l : List α} {a : α}
    (h : l.getLast? = some a) : a ∈ l := by
  induction l with
  | nil => cases h
  | cons x t ih =>
    cases t with
    | nil =>
      simp only [List.getLast?_singleton, Option.some.injEq] at h
      simp [h]
    | cons y u =>
      rw [List.getLast?_cons_cons] at h
      exact List.mem_cons_of_mem x (ih h)

theorem filter_ne_eq_dropLast {α : Type} [DecidableEq α] {l : List α} {a : α}
    (hlast : l.getLast? = some a) (hcount : l.count a ≤ 1) :
    l.filter (fun x => x ≠ a) = l.dropLast := by
  induction l with
  | nil => cases hlast
  | cons x t ih =>
    cases t with
    | nil =>
      simp only [List.getLast?_singleton, Option.some.injEq] at hlast
      subst hlast
      simp
    | cons y u =>
      rw [List.getLast?_cons_cons] at hlast
      have hmem : a ∈ y :: u := mem_of_getLast_some hlast
      have hxa : x ≠ a := by
        intro hx
        subst hx
        have h1 : 1 ≤ (y :: u).count x := List.one_le_count_iff.mpr hmem
        rw [List.count_cons_self] at hcount
        omega
      have hcount' : (y :: u).count a ≤ 1 := by
        rw [List.count_cons_of_ne (Ne.symm hxa)] at hcount
        exact hcount
      rw [List.dropLast_cons₂]
      rw [List.filter_cons_of_pos (by simp [hxa])]
      rw [ih hlast hcount']

/-- C10: on the empty top-level array, read_json evaluates data[0] before any
classification test and raises IndexError — not the documented format
ValueError, and it returns no mapping. -/
theorem C10_empty_array_gives_index_error :
    read_json (.arr []) = .error .indexErr ∧
    (Except.error .indexErr : Except PyErr PyDict) ≠ .error .valueErr :=
  ⟨rfl, by decide⟩

/-- C1 counterexample: the malformed stat value "abc" is non-numeric,
non-empty and has no K/M suffix, and parse_stat raises ValueError on it
instead of returning 0. -/
theorem C1_counterexample_parse_stat_raises :
    parse_stat (.str "abc") = .error .valueErr := rfl

/-- C1 amended: parse_stat maps only the empty (after comma removal) value
to 0; on a malformed stat value containing any ASCII letter — with no K or M
anywhere in it, so the letter is not a magnitude suffix — parse_stat raises
ValueError: such stat parse failures abort the run rather than defaulting
to 0.  (A letter defeats int() whatever else the string contains, so this
class is safe from int()'s whitespace, underscore and non-ASCII-digit
acceptance.) -/
theorem C1_amended_malformed_stat_raises :
    parse_stat (.str "") = .ok 0 ∧
    ∀ (s : String) (c : Char),
      c ∈ s.data → c.isAlpha = true →
      (s.data.filter (fun x => x ≠ ',')).contains 'K' = false →
      (s.data.filter (fun x => x ≠ ',')).contains 'M' = false →
      parse_stat (.str s) = .error .valueErr := by
  refine ⟨rfl, ?_⟩
  intro s c hmem ha hK hM
  have hc : c ≠ ',' := fun he => absurd (he ▸ ha) (by decide)
  have hv : c ∈ s.data.filter (fun x => x ≠ ',') :=
    List.mem_filter.mpr ⟨hmem, by simp [hc]⟩
  simp at hK hM
  have hforall : ¬ ∀ a ∈ s.data, a = ',' := fun h => hc (h c hmem)
  simp [parse_stat, pyStr, hK, hM, hforall]
  simpa using pyIntChars_error_of_alpha hv ha

/-- C1 amended witness at the concrete malformed value "abc". -/
theorem C1_amended_malformed_stat_raises_witness :
    parse_stat (.str "") = .ok 0 ∧ parse_stat (.str "abc") = .error .valueErr :=
  ⟨C1_amended_malformed_stat_raises.1,
   C1_amended_malformed_stat_raises.2 "abc" 'a' (by decide) (by decide)
     (by decide) (by decide)⟩

/-- C4 counterexample: parse_stat dispatches on *containment* of 'K', not on
an ending 'K': for the value "K5" (which does not end with K) the code
returns 5000, while the spec's ends-with contract would fall through to
integer parsing and raise ValueError. -/
theorem C4_counterexample_contains_vs_endswith :
    parse_stat (.str "K5") = .ok 5000 ∧ parse_stat_spec (.str "K5") = .error .valueErr :=
  ⟨rfl, rfl⟩

/-- C4 amended: the spec's concrete examples all hold, and the ends-with
reading of the K/M rule agrees with the code exactly on values where each of
K and M occurs at most once and only as the final character; in general the
code tests containment and strips every occurrence. -/
theorem C4_amended_parse_stat_contract :
    parse_stat (.str "1,234") = .ok 1234 ∧
    parse_stat (.str "1.5K") = .ok 1500 ∧
    parse_stat (.str "2M") = .ok 2000000 ∧
    parse_stat (.str "") = .ok 0 ∧
    parse_stat (.str "42") = .ok 42 ∧
    ∀ (value : JSON),
      ((pyStr value).data.filter (fun c => c ≠ ',')).count 'K' ≤ 1 →
      ((pyStr value).data.filter (fun c => c ≠ ',')).count 'M' ≤ 1 →
      (((pyStr value).data.filter (fun c => c ≠ ',')).contains 'K' = true →
        ((pyStr value).data.filter (fun c => c ≠ ',')).getLast? = some 'K') →
      (((pyStr value).data.filter (fun c => c ≠ ',')).contains 'M' = true →
        ((pyStr value).data.filter (fun c => c ≠ ',')).getLast? = some 'M') →
      parse_stat value = parse_stat_spec value := by
  refine ⟨rfl, rfl, rfl, rfl, rfl, ?_⟩
  intro value hcK hcM hlK hlM
  revert hcK hcM hlK hlM
  simp only [parse_stat, parse_stat_spec]
  generalize (List.filter (fun c => decide (c ≠ ',')) (pyStr value).data) = v
  intro hcK hcM hlK hlM
  cases hK : v.contains 'K' with
  | true =>
    have hlast := hlK hK
    rw [hlast, filter_ne_eq_dropLast hlast hcK]
    simp
  | false =>
    cases hM : v.contains 'M' with
    | true =>
      have hlast := hlM hM
      rw [hlast, filter_ne_eq_dropLast hlast hcM]
      simp
    | false =>
      simp at hK hM
      have hKlast : v.getLast? ≠ some 'K' := fun h => hK (mem_of_getLast_some h)
      have hMlast : v.getLast? ≠ some 'M' := fun h => hM (mem_of_getLast_some h)
      rw [if_neg hKlast, if_neg hMlast]
      simp

/-- C4 amended witness at the concrete value "1.5K" (single trailing K). -/
theorem C4_amended_parse_stat_contract_witness :
    parse_stat (.str "1.5K") = parse_stat_spec (.str "1.5K") :=
  C4_amended_parse_stat_contract.2.2.2.2.2 (.str "1.5K")
    (by decide) (by decide) (by decide) (by decide)

/-- C2 counterexample: the Source Loader's category branch splits "a, b" on
the comma without trimming, yielding ["a", " b"] — not the trimmed ["a", "b"]
the claim states. -/
theorem C2_counterexample_no_trimming :
    read_json (.arr [.obj [("id", .str "1"), ("categories", .str "a, b")]]) =
      .ok [(.str "1", .arr [.str "a", .str " b"])] ∧
    JSON.arr [.str "a", .str " b"] ≠ .arr [.str "a", .str "b"] :=
  ⟨rfl, by decide⟩

/-- C2 amended: a comma-joined category string is split on commas *without*
trimming the labels ("a, b" becomes ["a", " b"]), and an already-split list
passes through unchanged; this holds both in the Source Loader's category
branch and in the Graph Assembler's cat_list handling. -/
theorem C2_amended_split_without_trim :
    (∀ (i : JSON) (s : String),
      read_json (.arr [.obj [("id", i), ("categories", .str s)]]) =
        .ok [(i, .arr ((splitOnChar ',' s.data).map (fun g => .str (String.mk g))))]) ∧
    (∀ (i : JSON) (l : List JSON),
      read_json (.arr [.obj [("id", i), ("categories", .arr l)]]) =
        .ok [(i, .arr l)]) ∧
    (∀ (cats : PyDict) (tid : JSON) (s : String),
      dictGetD cats tid (.arr []) = .str s →
      catListFor cats tid = .arr ((splitOnChar ',' s.data).map (fun g => .str (String.mk g)))) ∧
    (∀ (cats : PyDict) (tid : JSON) (l : List JSON),
      dictGetD cats tid (.arr []) = .arr l →
      catListFor cats tid = .arr l) ∧
    splitOnChar ',' "a, b".data = ["a".data, " b".data] := by
  refine ⟨fun i s => rfl, fun i l => rfl, ?_, ?_, by decide⟩
  · intro cats tid s h
    rw [catListFor, h]
    rfl
  · intro cats tid l h
    rw [catListFor, h]
    rfl

/-- C2 amended witness at the concrete category value "a, b". -/
theorem C2_amended_split_without_trim_witness :
    catListFor [(.str "1", .str "a, b")] (.str "1") =
      .arr ((splitOnChar ',' "a, b".data).map (fun g => .str (String.mk g))) :=
  C2_amended_split_without_trim.2.2.1 [(.str "1", .str "a, b")] (.str "1") "a, b" rfl

/-! Fold lemmas for the integrity-check set algebra. -/

theorem subset_foldl_union {α : Type} [DecidableEq α] :
    ∀ (l : List (Finset α)) (a : Finset α), a ⊆ l.foldl (fun a s => a ∪ s) a
  | [], _ => Finset.Subset.refl _
  | x :: t, a => by
    simp only [List.foldl_cons]
    exact Finset.Subset.trans Finset.subset_union_left (subset_foldl_union t (a ∪ x))

theorem mem_subset_foldl_union {α : Type} [DecidableEq α] :
    ∀ (l : List (Finset α)) (a s : Finset α), s ∈ l → s ⊆ l.foldl (fun a s => a ∪ s) a
  | [], _, _, h => absurd h (List.not_mem_nil _)
  | x :: t, a, s, h => by
    simp only [List.foldl_cons]
    rcases List.mem_cons.mp h with h' | h'
    · subst h'
      exact Finset.Subset.trans Finset.subset_union_right (subset_foldl_union t (a ∪ s))
    · exact mem_subset_foldl_union t (a ∪ x) s h'

theorem foldl_inter_subset_init {α : Type} [DecidableEq α] :
    ∀ (l : List (Finset α)) (a : Finset α), l.foldl (fun a s => a ∩ s) a ⊆ a
  | [], _ => Finset.Subset.refl _
  | x :: t, a => by
    simp only [List.foldl_cons]
    exact Finset.Subset.trans (foldl_inter_subset_init t (a ∩ x)) Finset.inter_subset_left

theorem foldl_inter_subset_mem {α : Type} [DecidableEq α] :
    ∀ (l : List (Finset α)) (a s : Finset α), s ∈ l → l.foldl (fun a s => a ∩ s) a ⊆ s
  | [], _, _, h => absurd h (List.not_mem_nil _)
  | x :: t, a, s, h => by
    simp only [List.foldl_cons]
    rcases List.mem_cons.mp h with h' | h'
    · subst h'
      exact Finset.Subset.trans (foldl_inter_subset_init t (a ∩ s)) Finset.inter_subset_right
    · exact foldl_inter_subset_mem t (a ∩ x) s h'

theorem foldl_union_const {α : Type} [DecidableEq α] :
    ∀ (l : List (Finset α)) (a : Finset α), (∀ s ∈ l, s = a) → l.foldl (fun a s => a ∪ s) a = a
  | [], _, _ => rfl
  | x :: t, a, h => by
    have hx : x = a := h x (List.mem_cons_self x t)
    simp only [List.foldl_cons, hx, Finset.union_self]
    exact foldl_union_const t a (fun s hs => h s (List.mem_cons_of_mem x hs))

theorem foldl_inter_const {α : Type} [DecidableEq α] :
    ∀ (l : List (Finset α)) (a : Finset α), (∀ s ∈ l, s = a) → l.foldl (fun a s => a ∩ s) a = a
  | [], _, _ => rfl
  | x :: t, a, h => by
    have hx : x = a := h x (List.mem_cons_self x t)
    simp only [List.foldl_cons, hx, Finset.inter_self]
    exact foldl_inter_const t a (fun s hs => h s (List.mem_cons_of_mem x hs))

theorem interAll_subset_mem (first : Finset String) (rest : List (Finset String)) :
    ∀ s, s = first ∨ s ∈ rest → interAll first rest ⊆ s := by
  intro s h
  rcases h with h | h
  · subst h
    exact foldl_inter_subset_init rest s
  · exact foldl_inter_subset_mem rest first s h

theorem mem_subset_unionAll (sets : List (Finset String)) :
    ∀ s ∈ sets, s ⊆ unionAll sets :=
  fun s hs => mem_subset_foldl_union sets ∅ s hs

/-- C3: the Integrity Verifier reports consistency exactly when all artifact
identifier sets are equal (equivalently, when the intersection and union have
the same size); otherwise it emits, for exactly the artifacts whose set
misses part of the union, a line carrying (union minus that artifact's set);
on four equal sets it reports consistency, and when one set drops "2" it
reports exactly "2" missing from that artifact and nothing else. -/
theorem C3_integrity_report_characterization :
    (∀ (first : String × Finset String) (rest : List (String × Finset String)),
      integrity_report first rest = .consistent ↔ ∀ p ∈ first :: rest, p.2 = first.2) ∧
    (∀ first rest lines, integrity_report first rest = .missingFrom lines →
      lines = (first :: rest).filterMap (fun f =>
        if unionAll ((first :: rest).map Prod.snd) \ f.2 = ∅ then none
        else some ⟨f.1, unionAll ((first :: rest).map Prod.snd) \ f.2⟩)) ∧
    integrity_report ("turras.csv", {"1", "2", "3"})
      [("tweets_exam.json", {"1", "2", "3"}), ("tweets_map.json", {"1", "2", "3"}),
       ("tweets_summary.json", {"1", "2", "3"})] = .consistent ∧
    integrity_report ("turras.csv", {"1", "2", "3"})
      [("tweets_exam.json", {"1", "3"}), ("tweets_map.json", {"1", "2", "3"}),
       ("tweets_summary.json", {"1", "2", "3"})] =
      .missingFrom [⟨"tweets_exam.json", {"2"}⟩] := by
  refine ⟨?_, ?_, by decide, by decide⟩
  · intro first rest
    have hif : interAll first.2 (rest.map Prod.snd) ⊆ first.2 :=
      foldl_inter_subset_init _ _
    have hfu : first.2 ⊆ unionAll ((first :: rest).map Prod.snd) :=
      mem_subset_unionAll _ first.2 (by simp)
    constructor
    · intro hcons
      by_cases hcard : (interAll first.2 (rest.map Prod.snd)).card =
          (unionAll ((first :: rest).map Prod.snd)).card
      · have hieq : interAll first.2 (rest.map Prod.snd) =
            unionAll ((first :: rest).map Prod.snd) :=
          Finset.eq_of_subset_of_card_le (Finset.Subset.trans hif hfu) (le_of_eq hcard.symm)
        intro p hp
        have hpu : p.2 ⊆ unionAll ((first :: rest).map Prod.snd) :=
          mem_subset_unionAll _ p.2 (List.mem_map_of_mem Prod.snd hp)
        have hip : interAll first.2 (rest.map Prod.snd) ⊆ p.2 := by
          apply interAll_subset_mem
          rcases List.mem_cons.mp hp with h | h
          · left; rw [h]
          · right; exact List.mem_map_of_mem Prod.snd h
        have hfirst : interAll first.2 (rest.map Prod.snd) ⊆ first.2 := hif
        have hpeq : p.2 = unionAll ((first :: rest).map Prod.snd) :=
          Finset.Subset.antisymm hpu (hieq ▸ hip)
        have hfeq : first.2 = unionAll ((first :: rest).map Prod.snd) :=
          Finset.Subset.antisymm hfu (hieq ▸ hfirst)
        rw [hpeq, hfeq]
      · unfold integrity_report at hcons
        rw [if_neg hcard] at hcons
        exact Report.noConfusion hcons
    · intro hall
      have hmaps : ∀ s ∈ rest.map Prod.snd, s = first.2 := by
        intro s hs
        rcases List.mem_map.mp hs with ⟨p, hp, rfl⟩
        exact hall p (List.mem_cons_of_mem first hp)
      have hu : unionAll ((first :: rest).map Prod.snd) = first.2 := by
        unfold unionAll
        simp only [List.map_cons, List.foldl_cons, Finset.empty_union]
        exact foldl_union_const _ _ hmaps
      have hi : interAll first.2 (rest.map Prod.snd) = first.2 :=
        foldl_inter_const _ _ hmaps
      unfold integrity_report
      rw [hi, hu, if_pos rfl]
  · intro first rest lines h
    by_cases hcard : (interAll first.2 (rest.map Prod.snd)).card =
        (unionAll ((first :: rest).map Prod.snd)).card
    · unfold integrity_report at h
      rw [if_pos hcard] at h
      exact Report.noConfusion h
    · unfold integrity_report at h
      rw [if_neg hcard] at h
      injection h with h'
      exact h'.symm

/-- C3 witness: the missing-line characterization applied to the concrete
one-set-short instance. -/
theorem C3_integrity_report_characterization_witness :
    [ReportLine.mk "tweets_exam.json" {"2"}] =
      ((("turras.csv", ({"1", "2", "3"} : Finset String)) ::
        [("tweets_exam.json", {"1", "3"}), ("tweets_map.json", {"1", "2", "3"}),
         ("tweets_summary.json", {"1", "2", "3"})]).filterMap (fun f =>
        if unionAll (((("turras.csv", ({"1", "2", "3"} : Finset String)) ::
            [("tweets_exam.json", {"1", "3"}), ("tweets_map.json", {"1", "2", "3"}),
             ("tweets_summary.json", {"1", "2", "3"})])).map Prod.snd) \ f.2 = ∅ then none
        else some ⟨f.1, unionAll (((("turras.csv", ({"1", "2", "3"} : Finset String)) ::
            [("tweets_exam.json", {"1", "3"}), ("tweets_map.json", {"1", "2", "3"}),
             ("tweets_summary.json", {"1", "2", "3"})])).map Prod.snd) \ f.2⟩)) :=
  C3_integrity_report_characterization.2.1 ("turras.csv", {"1", "2", "3"})
    [("tweets_exam.json", {"1", "3"}), ("tweets_map.json", {"1", "2", "3"}),
     ("tweets_summary.json", {"1", "2", "3"})] [⟨"tweets_exam.json", {"2"}⟩] (by decide)

/-! Helper reduction equations for the Except monad as used by the
embedding, plus a generic characterization of an effectful left fold whose
step maps a per-element Except computation over the accumulator. -/

theorem exceptMap_ok {α β : Type} (f : α → β) (a : α) :
    (Except.ok a : Except PyErr α).map f = .ok (f a) := rfl

theorem exceptMap_error {α β : Type} (f : α → β) (e : PyErr) :
    (Except.error e : Except PyErr α).map f = .error e := rfl

theorem exceptBind_ok {α β : Type} (a : α) (f : α → Except PyErr β) :
    (Except.ok a >>= f : Except PyErr β) = f a := rfl

theorem exceptBind_error {α β : Type} (e : PyErr) (f : α → Except PyErr β) :
    (Except.error e >>= f : Except PyErr β) = .error e := rfl

theorem exceptPure_eq {α : Type} (a : α) : (pure a : Except PyErr α) = .ok a := rfl

theorem foldlM_eq_mapM {α β γ : Type} (f : α → Except PyErr γ) (g : β → γ → β) :
    ∀ (l : List α) (b : β),
      l.foldlM (fun acc x => (f x).map (g acc)) b =
        (l.mapM f).map (fun cs => cs.foldl g b)
  | [], b => rfl
  | x :: t, b => by
    rw [List.foldlM_cons, List.mapM_cons]
    cases hfx : f x with
    | error e =>
      rw [exceptMap_error, exceptBind_error, exceptBind_error, exceptMap_error]
    | ok c =>
      rw [exceptMap_ok, exceptBind_ok, exceptBind_ok]
      rw [foldlM_eq_mapM f g t (g b c)]
      cases hmt : t.mapM f with
      | error e =>
        rw [exceptMap_error, exceptBind_error, exceptMap_error]
      | ok cs =>
        rw [exceptMap_ok, exceptBind_ok, exceptPure_eq, exceptMap_ok, List.foldl_cons]

theorem categoryStep_eq (d : PyDict) (item : JSON) :
    (do
      let k ← pyGetItem item "id"
      let c ← pyGetItem item "categories"
      pure (pyDictInsert d k (normalizeCategories c)) : Except PyErr PyDict) =
    (categoryPair item).map (fun p => pyDictInsert d p.1 p.2) := by
  unfold categoryPair
  cases h1 : pyGetItem item "id" with
  | error e => rw [exceptBind_error, exceptBind_error, exceptMap_error]
  | ok k =>
    rw [exceptBind_ok, exceptBind_ok]
    cases h2 : pyGetItem item "categories" with
    | error e => rw [exceptBind_error, exceptBind_error, exceptMap_error]
    | ok c => rw [exceptBind_ok, exceptBind_ok, exceptPure_eq, exceptPure_eq, exceptMap_ok]

theorem summaryStep_eq (d : PyDict) (item : JSON) :
    (do
      let k ← pyGetItem item "id"
      let s ← pyGetItem item "summary"
      pure (pyDictInsert d k s) : Except PyErr PyDict) =
    (summaryPair item).map (fun p => pyDictInsert d p.1 p.2) := by
  unfold summaryPair
  cases h1 : pyGetItem item "id" with
  | error e => rw [exceptBind_error, exceptBind_error, exceptMap_error]
  | ok k =>
    rw [exceptBind_ok, exceptBind_ok]
    cases h2 : pyGetItem item "summary" with
    | error e => rw [exceptBind_error, exceptBind_error, exceptMap_error]
    | ok s => rw [exceptBind_ok, exceptBind_ok, exceptPure_eq, exceptPure_eq, exceptMap_ok]

theorem buildCategory_characterization (items : List JSON) :
    buildCategory items =
      (items.mapM categoryPair).map
        (fun ps => ps.foldl (fun d p => pyDictInsert d p.1 p.2) []) := by
  unfold buildCategory
  have hstep : (fun (d : PyDict) (item : JSON) =>
      (do
        let k ← pyGetItem item "id"
        let c ← pyGetItem item "categories"
        pure (pyDictInsert d k (normalizeCategories c)) : Except PyErr PyDict)) =
      (fun d item => (categoryPair item).map (fun p => pyDictInsert d p.1 p.2)) := by
    funext d item
    exact categoryStep_eq d item
  rw [hstep, foldlM_eq_mapM]

theorem buildSummary_characterization (items : List JSON) :
    buildSummary items =
      (items.mapM summaryPair).map
        (fun ps => ps.foldl (fun d p => pyDictInsert d p.1 p.2) []) := by
  unfold buildSummary
  have hstep : (fun (d : PyDict) (item : JSON) =>
      (do
        let k ← pyGetItem item "id"
        let s ← pyGetItem item "summary"
        pure (pyDictInsert d k s) : Except PyErr PyDict)) =
      (fun d item => (summaryPair item).map (fun p => pyDictInsert d p.1 p.2)) := by
    funext d item
    exact summaryStep_eq d item
  rw [hstep, foldlM_eq_mapM]

theorem mem_pyDictInsert_elim {d : PyDict} {k v : JSON} {kv : JSON × JSON}
    (h : kv ∈ pyDictInsert d k v) : kv ∈ d ∨ kv = (k, v) := by
  unfold pyDictInsert at h
  split at h
  · rcases List.mem_map.mp h with ⟨p, hp, heq⟩
    split at heq
    · next hpk =>
      right
      rw [← heq, show p.1 = k from eq_of_beq hpk]
    · left
      rw [← heq]
      exact hp
  · rcases List.mem_append.mp h with h | h
    · left; exact h
    · right; exact List.mem_singleton.mp h

theorem self_mem_pyDictInsert (d : PyDict) (k v : JSON) :
    (k, v) ∈ pyDictInsert d k v := by
  unfold pyDictInsert
  split
  · next hany =>
    rcases List.any_eq_true.mp hany with ⟨p, hp, hpk⟩
    apply List.mem_map.mpr
    refine ⟨p, hp, ?_⟩
    rw [if_pos hpk, show p.1 = k from eq_of_beq hpk]
  · exact List.mem_append.mpr (Or.inr (List.mem_singleton.mpr rfl))

theorem key_mem_pyDictInsert {d : PyDict} {k v : JSON} (k2 v2 : JSON)
    (h : (k, v) ∈ d) : ∃ w, (k, w) ∈ pyDictInsert d k2 v2 := by
  unfold pyDictInsert
  split
  · by_cases hkk : (k == k2) = true
    · refine ⟨v2, List.mem_map.mpr ⟨(k, v), h, ?_⟩⟩
      rw [if_pos hkk]
    · refine ⟨v, List.mem_map.mpr ⟨(k, v), h, ?_⟩⟩
      rw [if_neg (by simpa using hkk)]
  · exact ⟨v, List.mem_append.mpr (Or.inl h)⟩

theorem buildThread_go_mem :
    ∀ (items : List JSON) (d0 d : PyDict),
      items.foldlM (fun d sub =>
        if pyTruthy sub then do
          let f ← pyIndexZero sub
          let k ← pyGetItem f "id"
          pure (pyDictInsert d k sub)
        else pure d) d0 = .ok d →
      ∀ kv ∈ d, kv ∈ d0 ∨ (kv.2 ∈ items ∧ pyTruthy kv.2 = true ∧
        ∃ f, pyIndexZero kv.2 = .ok f ∧ pyGetItem f "id" = .ok kv.1)
  | [], d0, d, h, kv, hkv => by
    rw [List.foldlM_nil] at h
    cases h
    exact Or.inl hkv
  | sub :: t, d0, d, h, kv, hkv => by
    rw [List.foldlM_cons] at h
    by_cases htr : pyTruthy sub = true
    · rw [if_pos htr] at h
      cases hf : pyIndexZero sub with
      | error e =>
        rw [hf, exceptBind_error, exceptBind_error] at h
        cases h
      | ok f =>
        rw [hf, exceptBind_ok] at h
        cases hk : pyGetItem f "id" with
        | error e =>
          rw [hk, exceptBind_error, exceptBind_error] at h
          cases h
        | ok k =>
          rw [hk, exceptBind_ok, exceptPure_eq, exceptBind_ok] at h
          rcases buildThread_go_mem t _ _ h kv hkv with hin | hprop
          · rcases mem_pyDictInsert_elim hin with hin0 | heq
            · exact Or.inl hin0
            · subst heq
              exact Or.inr ⟨List.mem_cons_self sub t, htr, f, hf, hk⟩
          · exact Or.inr ⟨List.mem_cons_of_mem sub hprop.1, hprop.2.1, hprop.2.2⟩
    · rw [if_neg htr, exceptPure_eq, exceptBind_ok] at h
      rcases buildThread_go_mem t _ _ h kv hkv with hin | hprop
      · exact Or.inl hin
      · exact Or.inr ⟨List.mem_cons_of_mem sub hprop.1, hprop.2.1, hprop.2.2⟩

theorem buildThread_go_keys :
    ∀ (items : List JSON) (d0 d : PyDict),
      items.foldlM (fun d sub =>
        if pyTruthy sub then do
          let f ← pyIndexZero sub
          let k ← pyGetItem f "id"
          pure (pyDictInsert d k sub)
        else pure d) d0 = .ok d →
      (∀ k v, (k, v) ∈ d0 → ∃ w, (k, w) ∈ d) ∧
      (∀ sub ∈ items, pyTruthy sub = true →
        ∀ f k, pyIndexZero sub = .ok f → pyGetItem f "id" = .ok k → ∃ w, (k, w) ∈ d)
  | [], d0, d, h => by
    rw [List.foldlM_nil] at h
    cases h
    exact ⟨fun k v hkv => ⟨v, hkv⟩, fun sub hs => absurd hs (List.not_mem_nil sub)⟩
  | sub :: t, d0, d, h => by
    rw [List.foldlM_cons] at h
    by_cases htr : pyTruthy sub = true
    · rw [if_pos htr] at h
      cases hf : pyIndexZero sub with
      | error e =>
        rw [hf, exceptBind_error, exceptBind_error] at h
        cases h
      | ok f =>
        rw [hf, exceptBind_ok] at h
        cases hk : pyGetItem f "id" with
        | error e =>
          rw [hk, exceptBind_error, exceptBind_error] at h
          cases h
        | ok k =>
          rw [hk, exceptBind_ok, exceptPure_eq, exceptBind_ok] at h
          have ih := buildThread_go_keys t _ _ h
          constructor
          · intro k1 v1 hin
            rcases key_mem_pyDictInsert k sub hin with ⟨w, hw⟩
            exact ih.1 k1 w hw
          · intro sub' hs' htr' f' k' hf' hk'
            rcases List.mem_cons.mp hs' with heq | hmem
            · subst heq
              rw [hf] at hf'
              cases hf'
              rw [hk] at hk'
              cases hk'
              exact ih.1 k sub' (self_mem_pyDictInsert d0 k sub')
            · exact ih.2 sub' hmem htr' f' k' hf' hk'
    · rw [if_neg htr, exceptPure_eq, exceptBind_ok] at h
      have ih := buildThread_go_keys t _ _ h
      constructor
      · exact fun k v hkv => ih.1 k v hkv
      · intro sub' hs' htr' f' k' hf' hk'
        rcases List.mem_cons.mp hs' with heq | hmem
        · subst heq
          exact absurd htr' htr
        · exact ih.2 sub' hmem htr' f' k' hf' hk'

/-- C5: read_json classifies a non-empty top-level array by probing the first
element, in order: a positive 'categories' probe selects the category branch,
otherwise a positive 'summary' probe selects the summary branch, otherwise
the thread branch; the category and summary branches map each item's id to
its (normalized) categories resp. summary value; in the thread branch every
entry of the mapping is a truthy (non-empty) inner value whose first
element's id equals the entry's key, falsy (empty) inner lists are skipped,
and every kept inner list's first id occurs as a key. -/
theorem C5_source_loader_classification :
    (∀ first rest, pyContains "categories" first = .ok true →
      read_json (.arr (first :: rest)) = buildCategory (first :: rest)) ∧
    (∀ first rest, pyContains "categories" first = .ok false →
      pyContains "summary" first = .ok true →
      read_json (.arr (first :: rest)) = buildSummary (first :: rest)) ∧
    (∀ first rest, pyContains "categories" first = .ok false →
      pyContains "summary" first = .ok false →
      read_json (.arr (first :: rest)) = buildThread (first :: rest)) ∧
    (∀ items, buildCategory items =
      (items.mapM categoryPair).map
        (fun ps => ps.foldl (fun d p => pyDictInsert d p.1 p.2) [])) ∧
    (∀ items, buildSummary items =
      (items.mapM summaryPair).map
        (fun ps => ps.foldl (fun d p => pyDictInsert d p.1 p.2) [])) ∧
    (∀ items d, buildThread items = .ok d → ∀ kv ∈ d,
      kv.2 ∈ items ∧ pyTruthy kv.2 = true ∧
      ∃ f, pyIndexZero kv.2 = .ok f ∧ pyGetItem f "id" = .ok kv.1) ∧
    (∀ items d, buildThread items = .ok d →
      ∀ sub ∈ items, pyTruthy sub = true →
      ∀ f k, pyIndexZero sub = .ok f → pyGetItem f "id" = .ok k →
      ∃ w, (k, w) ∈ d) := by
  refine ⟨?_, ?_, ?_, buildCategory_characterization, buildSummary_characterization, ?_, ?_⟩
  · intro first rest h1
    simp [read_json, h1, exceptBind_ok]
  · intro first rest h1 h2
    simp [read_json, h1, h2, exceptBind_ok]
  · intro first rest h1 h2
    simp [read_json, h1, h2, exceptBind_ok]
  · intro items d h
    intro kv hkv
    rcases buildThread_go_mem items [] d h kv hkv with hin | hprop
    · exact absurd hin (List.not_mem_nil kv)
    · exact hprop
  · intro items d h
    exact (buildThread_go_keys items [] d h).2

/-- C5 witness: a concrete two-element thread document, with its empty inner
list skipped and the kept entry satisfying the key/value property. -/
theorem C5_source_loader_classification_witness :
    read_json (.arr [.arr [.obj [("id", .str "1")]], .arr []]) =
      buildThread [.arr [.obj [("id", .str "1")]], .arr []] ∧
    ((JSON.str "1", JSON.arr [.obj [("id", .str "1")]]).2 ∈
        [JSON.arr [.obj [("id", .str "1")]], JSON.arr []] ∧
      pyTruthy (JSON.str "1", JSON.arr [.obj [("id", .str "1")]]).2 = true ∧
      ∃ f, pyIndexZero (JSON.str "1", JSON.arr [.obj [("id", .str "1")]]).2 = .ok f ∧
        pyGetItem f "id" = .ok (JSON.str "1", JSON.arr [.obj [("id", .str "1")]]).1) :=
  ⟨C5_source_loader_classification.2.2.1 _ _ (by decide) (by decide),
   C5_source_loader_classification.2.2.2.2.2.1
     [JSON.arr [.obj [("id", .str "1")]], JSON.arr []]
     [(JSON.str "1", JSON.arr [.obj [("id", .str "1")]])] rfl
     (JSON.str "1", JSON.arr [.obj [("id", .str "1")]]) (by decide)⟩

theorem pyGetItem_no_valueErr (j : JSON) (key : String) :
    pyGetItem j key ≠ .error .valueErr := by
  unfold pyGetItem
  cases j <;> simp
  case obj fields => cases fields.lookup key <;> simp

theorem pyIndexZero_no_valueErr (j : JSON) :
    pyIndexZero j ≠ .error .valueErr := by
  unfold pyIndexZero
  cases j <;> simp
  case str s => cases s.data <;> simp
  case arr elems => cases elems <;> simp

theorem pyContains_no_valueErr (needle : String) (j : JSON) :
    pyContains needle j ≠ .error .valueErr := by
  unfold pyContains
  cases j <;> simp

theorem foldlM_no_valueErr {α β : Type} (f : β → α → Except PyErr β)
    (hf : ∀ b x, f b x ≠ .error .valueErr) :
    ∀ (l : List α) (b : β), l.foldlM f b ≠ .error .valueErr
  | [], b => by
    rw [List.foldlM_nil]
    exact fun h => Except.noConfusion h
  | x :: t, b => by
    rw [List.foldlM_cons]
    cases hfx : f b x with
    | error e =>
      rw [exceptBind_error]
      intro h
      injection h with h'
      exact hf b x (by rw [hfx, h'])
    | ok b' =>
      rw [exceptBind_ok]
      exact foldlM_no_valueErr f hf t b'

theorem buildCategory_no_valueErr (items : List JSON) :
    buildCategory items ≠ .error .valueErr := by
  unfold buildCategory
  apply foldlM_no_valueErr
  intro d item
  cases h1 : pyGetItem item "id" with
  | error e =>
    rw [exceptBind_error]
    intro h
    injection h with h'
    exact pyGetItem_no_valueErr item "id" (by rw [h1, h'])
  | ok k =>
    rw [exceptBind_ok]
    cases h2 : pyGetItem item "categories" with
    | error e =>
      rw [exceptBind_error]
      intro h
      injection h with h'
      exact pyGetItem_no_valueErr item "categories" (by rw [h2, h'])
    | ok c =>
      rw [exceptBind_ok, exceptPure_eq]
      exact fun h => Except.noConfusion h

theorem buildSummary_no_valueErr (items : List JSON) :
    buildSummary items ≠ .error .valueErr := by
  unfold buildSummary
  apply foldlM_no_valueErr
  intro d item
  cases h1 : pyGetItem item "id" with
  | error e =>
    rw [exceptBind_error]
    intro h
    injection h with h'
    exact pyGetItem_no_valueErr item "id" (by rw [h1, h'])
  | ok k =>
    rw [exceptBind_ok]
    cases h2 : pyGetItem item "summary" with
    | error e =>
      rw [exceptBind_error]
      intro h
      injection h with h'
      exact pyGetItem_no_valueErr item "summary" (by rw [h2, h'])
    | ok s =>
      rw [exceptBind_ok, exceptPure_eq]
      exact fun h => Except.noConfusion h

theorem buildThread_no_valueErr (items : List JSON) :
    buildThread items ≠ .error .valueErr := by
  unfold buildThread
  apply foldlM_no_valueErr
  intro d sub
  by_cases htr : pyTruthy sub = true
  · rw [if_pos htr]
    cases hf : pyIndexZero sub with
    | error e =>
      rw [exceptBind_error]
      intro h
      injection h with h'
      exact pyIndexZero_no_valueErr sub (by rw [hf, h'])
    | ok f =>
      rw [exceptBind_ok]
      cases hk : pyGetItem f "id" with
      | error e =>
        rw [exceptBind_error]
        intro h
        injection h with h'
        exact pyGetItem_no_valueErr f "id" (by rw [hk, h'])
      | ok k =>
        rw [exceptBind_ok, exceptPure_eq]
        exact fun h => Except.noConfusion h
  · rw [if_neg htr, exceptPure_eq]
    exact fun h => Except.noConfusion h

/-- C6 counterexample: the array [{"categories": "x"}] matches the first
classification rule (its first element has a 'categories' field), yet
read_json raises — a KeyError on the missing 'id' — so a matching rule does
not guarantee an error-free run. -/
theorem C6_counterexample_matching_rule_raises :
    pyContains "categories" (.obj [("categories", .str "x")]) = .ok true ∧
    read_json (.arr [.obj [("categories", .str "x")]]) = .error .keyErr ∧
    PyErr.keyErr ≠ PyErr.valueErr :=
  ⟨rfl, rfl, by decide⟩

/-- C6 amended: read_json fails with the script's format ValueError exactly
on non-array documents (and then returns no mapping); for arrays the three
classification rules are exhaustive, and any failure inside a selected
branch is an IndexError, KeyError, TypeError or AttributeError — never the
format error.  A matching rule does not, however, preclude such a failure. -/
theorem C6_amended_format_error_iff_not_array :
    ∀ j : JSON, read_json j = .error .valueErr ↔ ∀ items, j ≠ .arr items := by
  intro j
  cases j with
  | arr items =>
    constructor
    · intro h
      exfalso
      cases items with
      | nil =>
        rw [read_json] at h
        injection h with h'
        exact PyErr.noConfusion h'
      | cons first rest =>
        rw [read_json] at h
        cases hc : pyContains "categories" first with
        | error e =>
          rw [hc, exceptBind_error] at h
          injection h with h'
          exact pyContains_no_valueErr "categories" first (by rw [hc, h'])
        | ok b =>
          rw [hc, exceptBind_ok] at h
          cases b with
          | true =>
            rw [if_pos rfl] at h
            exact buildCategory_no_valueErr (first :: rest) h
          | false =>
            rw [if_neg (by simp)] at h
            cases hs : pyContains "summary" first with
            | error e =>
              rw [hs, exceptBind_error] at h
              injection h with h'
              exact pyContains_no_valueErr "summary" first (by rw [hs, h'])
            | ok b2 =>
              rw [hs, exceptBind_ok] at h
              cases b2 with
              | true =>
                rw [if_pos rfl] at h
                exact buildSummary_no_valueErr (first :: rest) h
              | false =>
                rw [if_neg (by simp)] at h
                exact buildThread_no_valueErr (first :: rest) h
    · intro hne
      exact absurd rfl (hne items)
  | null => exact ⟨fun _ items he => JSON.noConfusion he, fun _ => rfl⟩
  | bool b => exact ⟨fun _ items he => JSON.noConfusion he, fun _ => rfl⟩
  | num n => exact ⟨fun _ items he => JSON.noConfusion he, fun _ => rfl⟩
  | str s => exact ⟨fun _ items he => JSON.noConfusion he, fun _ => rfl⟩
  | obj fs => exact ⟨fun _ items he => JSON.noConfusion he, fun _ => rfl⟩

/-- C6 amended witness: a non-array document produces the format error. -/
theorem C6_amended_format_error_iff_not_array_witness :
    read_json (.obj []) = .error .valueErr :=
  (C6_amended_format_error_iff_not_array (.obj [])).mpr (fun _ he => JSON.noConfusion he)

theorem Stats.add_def (a b : Stats) :
    a + b = ⟨a.replies + b.replies, a.likes + b.likes,
             a.bookmarks + b.bookmarks, a.views + b.views⟩ := rfl

theorem addTweetStats_shift (acc : Stats) (t : JSON) :
    addTweetStats acc t = (tweetStats t).map (fun c => acc + c) := by
  unfold tweetStats addTweetStats
  cases h0 : pyGet t "stats" (.obj []) with
  | error e => rw [exceptBind_error, exceptBind_error, exceptMap_error]
  | ok stats =>
    rw [exceptBind_ok, exceptBind_ok]
    cases g1 : pyGet stats "replies" (.num 0) with
    | error e => rw [exceptBind_error, exceptBind_error, exceptMap_error]
    | ok v1 =>
      rw [exceptBind_ok, exceptBind_ok]
      cases p1 : parse_stat v1 with
      | error e => rw [exceptBind_error, exceptBind_error, exceptMap_error]
      | ok r =>
        rw [exceptBind_ok, exceptBind_ok]
        cases g2 : pyGet stats "likes" (.num 0) with
        | error e => rw [exceptBind_error, exceptBind_error, exceptMap_error]
        | ok v2 =>
          rw [exceptBind_ok, exceptBind_ok]
          cases p2 : parse_stat v2 with
          | error e => rw [exceptBind_error, exceptBind_error, exceptMap_error]
          | ok l =>
            rw [exceptBind_ok, exceptBind_ok]
            cases g3 : pyGet stats "bookmarks" (.num 0) with
            | error e => rw [exceptBind_error, exceptBind_error, exceptMap_error]
            | ok v3 =>
              rw [exceptBind_ok, exceptBind_ok]
              cases p3 : parse_stat v3 with
              | error e => rw [exceptBind_error, exceptBind_error, exceptMap_error]
              | ok b =>
                rw [exceptBind_ok, exceptBind_ok]
                cases g4 : pyGet stats "views" (.num 0) with
                | error e => rw [exceptBind_error, exceptBind_error, exceptMap_error]
                | ok v4 =>
                  rw [exceptBind_ok, exceptBind_ok]
                  cases p4 : parse_stat v4 with
                  | error e => rw [exceptBind_error, exceptBind_error, exceptMap_error]
                  | ok w =>
                    rw [exceptBind_ok, exceptBind_ok, exceptPure_eq, exceptPure_eq,
                      exceptMap_ok]
                    simp only [Stats.add_def, Except.ok.injEq, Stats.mk.injEq,
                      show (0 : Stats) = ⟨0, 0, 0, 0⟩ from rfl]
                    omega

theorem aggregateStats_characterization (ts : List JSON) :
    aggregateStats (.arr ts) = (ts.mapM tweetStats).map (fun cs => cs.sum) := by
  unfold aggregateStats
  rw [show pyIterate (.arr ts) = .ok ts from rfl, exceptBind_ok]
  have hstep : (fun (acc : Stats) (t : JSON) => addTweetStats acc t) =
      (fun acc t => (tweetStats t).map (fun c => acc + c)) := by
    funext acc t
    exact addTweetStats_shift acc t
  have h2 : ts.foldlM addTweetStats 0 =
      ts.foldlM (fun acc t => (tweetStats t).map (fun c => acc + c)) 0 := by
    rw [← hstep]
  rw [h2, foldlM_eq_mapM]
  cases hm : ts.mapM tweetStats with
  | error e => rw [exceptMap_error, exceptMap_error]
  | ok cs =>
    rw [exceptMap_ok, exceptMap_ok, List.sum_eq_foldl]

theorem mapM_tweetStats_perm {ts ts' : List JSON} (hperm : ts.Perm ts') :
    ∀ cs, ts.mapM tweetStats = .ok cs →
      ∃ cs', ts'.mapM tweetStats = .ok cs' ∧ cs.Perm cs' := by
  induction hperm with
  | nil =>
    intro cs h
    exact ⟨cs, h, List.Perm.refl cs⟩
  | cons x p ih =>
    rename_i l1 l2
    intro cs h
    rw [List.mapM_cons] at h
    cases hx : tweetStats x with
    | error e =>
      rw [hx, exceptBind_error] at h
      cases h
    | ok c =>
      rw [hx, exceptBind_ok] at h
      cases hm : List.mapM tweetStats l1 with
      | error e =>
        rw [hm, exceptBind_error] at h
        cases h
      | ok cs1 =>
        rw [hm, exceptBind_ok, exceptPure_eq] at h
        cases h
        rcases ih cs1 hm with ⟨cs2, hm2, hp⟩
        refine ⟨c :: cs2, ?_, List.Perm.cons c hp⟩
        rw [List.mapM_cons, hx, exceptBind_ok, hm2, exceptBind_ok, exceptPure_eq]
  | swap x y l =>
    intro cs h
    rw [List.mapM_cons, List.mapM_cons] at h
    cases hy : tweetStats y with
    | error e =>
      rw [hy, exceptBind_error] at h
      cases h
    | ok cy =>
      rw [hy, exceptBind_ok] at h
      cases hx : tweetStats x with
      | error e =>
        rw [hx, exceptBind_error, exceptBind_error] at h
        cases h
      | ok cx =>
        rw [hx, exceptBind_ok] at h
        cases hm : List.mapM tweetStats l with
        | error e =>
          rw [hm, exceptBind_error, exceptBind_error] at h
          cases h
        | ok cs1 =>
          rw [hm, exceptBind_ok, exceptPure_eq, exceptBind_ok, exceptPure_eq] at h
          cases h
          refine ⟨cx :: cy :: cs1, ?_, List.Perm.swap cx cy cs1⟩
          rw [List.mapM_cons, List.mapM_cons, hx, exceptBind_ok, hy, exceptBind_ok,
            hm, exceptBind_ok, exceptPure_eq, exceptBind_ok, exceptPure_eq]
  | trans p1 p2 ih1 ih2 =>
    intro cs h
    rcases ih1 cs h with ⟨cs1, h1, hp1⟩
    rcases ih2 cs1 h1 with ⟨cs2, h2, hp2⟩
    exact ⟨cs2, h2, hp1.trans hp2⟩

/-- C9: the per-thread stats loop computes, for each of replies, likes,
bookmarks and views, the sum starting from zero of the per-tweet parsed
stats (tweetStats), and permuting the tweets of a thread changes neither
success nor the totals; in particular a 3-tweet thread with replies 1, 2, 3
aggregates to 6 replies under a permuted ordering as well. -/
theorem C9_thread_aggregation_sums :
    (∀ ts cs, ts.mapM tweetStats = .ok cs →
      aggregateStats (.arr ts) = .ok cs.sum) ∧
    (∀ ts ts' t, ts.Perm ts' → aggregateStats (.arr ts) = .ok t →
      aggregateStats (.arr ts') = .ok t) ∧
    aggregateStats (.arr
      [.obj [("stats", .obj [("replies", .num 1)])],
       .obj [("stats", .obj [("replies", .num 2)])],
       .obj [("stats", .obj [("replies", .num 3)])]]) = .ok ⟨6, 0, 0, 0⟩ ∧
    aggregateStats (.arr
      [.obj [("stats", .obj [("replies", .num 3)])],
       .obj [("stats", .obj [("replies", .num 1)])],
       .obj [("stats", .obj [("replies", .num 2)])]]) = .ok ⟨6, 0, 0, 0⟩ := by
  refine ⟨?_, ?_, rfl, rfl⟩
  · intro ts cs h
    rw [aggregateStats_characterization, h, exceptMap_ok]
  · intro ts ts' t hperm h
    rw [aggregateStats_characterization] at h
    cases hm : ts.mapM tweetStats with
    | error e =>
      rw [hm, exceptMap_error] at h
      cases h
    | ok cs =>
      rw [hm, exceptMap_ok] at h
      cases h
      rcases mapM_tweetStats_perm hperm cs hm with ⟨cs', hm', hp⟩
      rw [aggregateStats_characterization, hm', exceptMap_ok, ← List.Perm.sum_eq hp]

/-- C9 witness: the sum characterization applied to the concrete 3-tweet
thread, and permutation invariance between its two orderings. -/
theorem C9_thread_aggregation_sums_witness :
    aggregateStats (.arr
      [.obj [("stats", .obj [("replies", .num 1)])],
       .obj [("stats", .obj [("replies", .num 2)])],
       .obj [("stats", .obj [("replies", .num 3)])]]) =
      .ok ([(⟨1, 0, 0, 0⟩ : Stats), ⟨2, 0, 0, 0⟩, ⟨3, 0, 0, 0⟩].sum) ∧
    aggregateStats (.arr
      [.obj [("stats", .obj [("replies", .num 2)])],
       .obj [("stats", .obj [("replies", .num 1)])],
       .obj [("stats", .obj [("replies", .num 3)])]]) = .ok ⟨6, 0, 0, 0⟩ :=
  ⟨C9_thread_aggregation_sums.1
     [.obj [("stats", .obj [("replies", .num 1)])],
      .obj [("stats", .obj [("replies", .num 2)])],
      .obj [("stats", .obj [("replies", .num 3)])]]
     [⟨1, 0, 0, 0⟩, ⟨2, 0, 0, 0⟩, ⟨3, 0, 0, 0⟩] rfl,
   C9_thread_aggregation_sums.2.1
     [.obj [("stats", .obj [("replies", .num 1)])],
      .obj [("stats", .obj [("replies", .num 2)])],
      .obj [("stats", .obj [("replies", .num 3)])]]
     [.obj [("stats", .obj [("replies", .num 2)])],
      .obj [("stats", .obj [("replies", .num 1)])],
      .obj [("stats", .obj [("replies", .num 3)])]]
     ⟨6, 0, 0, 0⟩
     (List.Perm.swap' _ _ (List.Perm.refl _)) C9_thread_aggregation_sums.2.2.1⟩

/-! Lemmas on the related_threads accumulator. -/

theorem relGet_relAppend_same (m : RelMap) (k v : JSON) :
    relGet (relAppend m k v) k = relGet m k ++ [v] := by
  unfold relAppend relGet
  split
  · next hany =>
    rw [List.find?_map]
    have hcomp : ((fun p : JSON × List JSON => p.1 == k) ∘
        (fun p : JSON × List JSON => if p.1 == k then (p.1, p.2 ++ [v]) else p)) =
        (fun p : JSON × List JSON => p.1 == k) := by
      funext p
      show ((if p.1 == k then (p.1, p.2 ++ [v]) else p).1 == k) = (p.1 == k)
      by_cases hpk : (p.1 == k) = true
      · rw [if_pos hpk]
      · rw [if_neg hpk]
    rw [hcomp]
    cases hf : m.find? (fun p => p.1 == k) with
    | none =>
      exfalso
      rcases List.any_eq_true.mp hany with ⟨p, hp, hpk⟩
      exact absurd hpk (by simpa using List.find?_eq_none.mp hf p hp)
    | some p0 =>
      have hp0 := List.find?_some hf
      show (if p0.1 == k then (p0.1, p0.2 ++ [v]) else p0).2 = p0.2 ++ [v]
      rw [if_pos hp0]
  · next hany =>
    rw [List.find?_append]
    cases hf : m.find? (fun p => p.1 == k) with
    | some p0 =>
      exfalso
      have hp0 := List.find?_some hf
      have hmem := List.mem_of_find?_eq_some hf
      exact hany (List.any_eq_true.mpr ⟨p0, hmem, hp0⟩)
    | none =>
      simp

theorem relGet_relAppend_ne (m : RelMap) (k v eid : JSON) (hne : eid ≠ k) :
    relGet (relAppend m k v) eid = relGet m eid := by
  unfold relAppend relGet
  split
  · rw [List.find?_map]
    have hcomp : ((fun p : JSON × List JSON => p.1 == eid) ∘
        (fun p : JSON × List JSON => if p.1 == k then (p.1, p.2 ++ [v]) else p)) =
        (fun p : JSON × List JSON => p.1 == eid) := by
      funext p
      show ((if p.1 == k then (p.1, p.2 ++ [v]) else p).1 == eid) = (p.1 == eid)
      by_cases hpk : (p.1 == k) = true
      · rw [if_pos hpk]
      · rw [if_neg hpk]
    rw [hcomp]
    cases hf : m.find? (fun p => p.1 == eid) with
    | none => rfl
    | some p0 =>
      have hp0 := List.find?_some hf
      show (if p0.1 == k then (p0.1, p0.2 ++ [v]) else p0).2 = p0.2
      have hpk : (p0.1 == k) = false := by
        have heq : p0.1 = eid := by simpa using hp0
        simp [heq, hne]
      rw [if_neg (by simp [hpk])]
  · rw [List.find?_append]
    cases hf : m.find? (fun p => p.1 == eid) with
    | some p0 => rfl
    | none =>
      have hsk : (((k, [v]) : JSON × List JSON).1 == eid) = false := by
        simp
        exact fun h => hne h.symm
      show ((List.find? (fun p => p.1 == eid) [(k, [v])]).map Prod.snd).getD [] = []
      rw [List.find?_cons_of_neg _ (by simp_all), List.find?_nil]
      rfl

theorem count_relAppend (m : RelMap) (k v eid p : JSON) :
    ((relGet (relAppend m k v) eid).count p) =
      (relGet m eid).count p + (if k = eid ∧ v = p then 1 else 0) := by
  by_cases heq : eid = k
  · subst heq
    rw [relGet_relAppend_same, List.count_append]
    simp [List.count_singleton', eq_comm]
  · rw [relGet_relAppend_ne m k v eid heq]
    have : ¬ (k = eid ∧ v = p) := fun hc => heq hc.1.symm
    rw [if_neg this]
    omega

theorem scanTweet_characterization {thread : JSON} {m : RelMap} {tweet : JSON} {m' : RelMap}
    (h : scanTweet thread m tweet = .ok m') :
    (tweetEmbedId tweet = .ok none ∧ m' = m) ∨
    (∃ eid pa, tweetEmbedId tweet = .ok (some eid) ∧ threadFirstId thread = .ok pa ∧
      m' = relAppend m eid pa) := by
  unfold scanTweet at h
  unfold tweetEmbedId
  cases h0 : pyGet tweet "metadata" (.obj []) with
  | error e =>
    rw [h0, exceptBind_error] at h
    cases h
  | ok md =>
    rw [h0, exceptBind_ok] at h
    rw [exceptBind_ok]
    cases h1 : pyGet md "embed" (.obj []) with
    | error e =>
      rw [h1, exceptBind_error] at h
      cases h
    | ok embed =>
      rw [h1, exceptBind_ok] at h
      rw [exceptBind_ok]
      cases h2 : pyGet embed "type" .null with
      | error e =>
        rw [h2, exceptBind_error] at h
        cases h
      | ok ty =>
        rw [h2, exceptBind_ok] at h
        rw [exceptBind_ok]
        by_cases hty : (ty == JSON.str "embed") = true
        · rw [if_pos hty] at h
          rw [if_pos hty]
          cases h3 : pyIndexZero thread with
          | error e =>
            rw [h3, exceptBind_error] at h
            cases h
          | ok f =>
            rw [h3, exceptBind_ok] at h
            cases h4 : pyGetItem f "id" with
            | error e =>
              rw [h4, exceptBind_error] at h
              cases h
            | ok parent =>
              rw [h4, exceptBind_ok] at h
              cases h5 : pyGetItem embed "id" with
              | error e =>
                rw [h5, exceptBind_error] at h
                cases h
              | ok eid =>
                rw [h5, exceptBind_ok, exceptPure_eq] at h
                cases h
                refine Or.inr ⟨eid, parent, ?_, ?_, rfl⟩
                · rfl
                · unfold threadFirstId
                  rw [h3, exceptBind_ok, h4]
        · rw [if_neg hty, exceptPure_eq] at h
          cases h
          refine Or.inl ⟨?_, rfl⟩
          rw [if_neg hty]
          rfl

theorem scanTweet_count {thread : JSON} {m : RelMap} {tweet : JSON} {m' : RelMap}
    (h : scanTweet thread m tweet = .ok m') (eid p : JSON) :
    (relGet m' eid).count p = (relGet m eid).count p + tweetContrib thread tweet eid p := by
  rcases scanTweet_characterization h with ⟨hnone, rfl⟩ | ⟨eid0, pa, hsome, hfirst, rfl⟩
  · have hz : tweetContrib thread tweet eid p = 0 := by
      unfold tweetContrib
      rw [if_neg]
      intro hc
      rw [hnone] at hc
      injection hc.1 with h'
      cases h'
    rw [hz]
    omega
  · rw [count_relAppend]
    unfold tweetContrib
    simp [hsome, hfirst]

theorem foldlM_scanTweet_count (thread : JSON) :
    ∀ (tweets : List JSON) (m m' : RelMap),
      tweets.foldlM (scanTweet thread) m = .ok m' →
      ∀ eid p, (relGet m' eid).count p =
        (relGet m eid).count p + (tweets.map (fun t => tweetContrib thread t eid p)).sum
  | [], m, m', h, eid, p => by
    rw [List.foldlM_nil] at h
    cases h
    simp
  | t :: ts, m, m', h, eid, p => by
    rw [List.foldlM_cons] at h
    cases hst : scanTweet thread m t with
    | error e =>
      rw [hst, exceptBind_error] at h
      cases h
    | ok m1 =>
      rw [hst, exceptBind_ok] at h
      rw [foldlM_scanTweet_count thread ts m1 m' h eid p, scanTweet_count hst eid p]
      rw [List.map_cons, List.sum_cons]
      omega

theorem scanThread_count {m : RelMap} {thread : JSON} {m' : RelMap}
    (h : scanThread m thread = .ok m') (eid p : JSON) :
    (relGet m' eid).count p = (relGet m eid).count p + threadContrib thread eid p := by
  unfold scanThread at h
  unfold threadContrib
  cases hit : pyIterate thread with
  | error e =>
    rw [hit, exceptBind_error] at h
    cases h
  | ok tweets =>
    rw [hit, exceptBind_ok] at h
    rw [foldlM_scanTweet_count thread tweets m m' h eid p]

theorem buildRelated_count_aux :
    ∀ (td : PyDict) (m m' : RelMap),
      td.foldlM (fun m kv => scanThread m kv.2) m = .ok m' →
      ∀ eid p, (relGet m' eid).count p =
        (relGet m eid).count p + (td.map (fun kv => threadContrib kv.2 eid p)).sum
  | [], m, m', h, eid, p => by
    rw [List.foldlM_nil] at h
    cases h
    simp
  | kv :: t, m, m', h, eid, p => by
    rw [List.foldlM_cons] at h
    cases hst : scanThread m kv.2 with
    | error e =>
      rw [hst, exceptBind_error] at h
      cases h
    | ok m1 =>
      rw [hst, exceptBind_ok] at h
      rw [buildRelated_count_aux t m1 m' h eid p, scanThread_count hst eid p]
      rw [List.map_cons, List.sum_cons]
      omega

/-- C7: for every embedded reference, the Relationship Resolver records an
edge from the embedded identifier to the *first tweet's* id of the enclosing
thread, and records every repetition: the number of times p occurs in the
list recorded against eid equals the total number of embedding tweets, over
all threads whose first-tweet id is p, that reference eid — no
deduplication.  Concretely: a reference made by the second tweet of thread
"1" is recorded as coming from "1" (not "2"), and two references from the
same thread to "9" leave ["1", "1"] against "9". -/
theorem C7_relationship_resolver_edges :
    (∀ (threads_data : PyDict) (rel : RelMap),
      buildRelated threads_data = .ok rel →
      ∀ eid p, (relGet rel eid).count p =
        (threads_data.map (fun kv => threadContrib kv.2 eid p)).sum) ∧
    buildRelated [(.str "1", .arr
      [.obj [("id", .str "1")],
       .obj [("id", .str "2"),
             ("metadata", .obj [("embed",
               .obj [("type", .str "embed"), ("id", .str "9")])])]])] =
      .ok [(.str "9", [.str "1"])] ∧
    buildRelated [(.str "1", .arr
      [.obj [("id", .str "1"),
             ("metadata", .obj [("embed",
               .obj [("type", .str "embed"), ("id", .str "9")])])],
       .obj [("id", .str "2"),
             ("metadata", .obj [("embed",
               .obj [("type", .str "embed"), ("id", .str "9")])])]])] =
      .ok [(.str "9", [.str "1", .str "1"])] := by
  refine ⟨?_, rfl, rfl⟩
  intro threads_data rel h eid p
  unfold buildRelated at h
  rw [buildRelated_count_aux threads_data [] rel h eid p]
  simp [relGet]

/-- C7 witness: the count formula applied to the concrete one-thread
database whose second tweet embeds "9". -/
theorem C7_relationship_resolver_edges_witness :
    (relGet [((JSON.str "9"), [JSON.str "1"])] (.str "9")).count (.str "1") =
      ([(JSON.str "1", JSON.arr
        [.obj [("id", .str "1")],
         .obj [("id", .str "2"),
               ("metadata", .obj [("embed",
                 .obj [("type", .str "embed"), ("id", .str "9")])])]])].map
        (fun kv => threadContrib kv.2 (.str "9") (.str "1"))).sum :=
  C7_relationship_resolver_edges.1
    [(JSON.str "1", JSON.arr
      [.obj [("id", .str "1")],
       .obj [("id", .str "2"),
             ("metadata", .obj [("embed",
               .obj [("type", .str "embed"), ("id", .str "9")])])]])]
    [((JSON.str "9"), [JSON.str "1"])] C7_relationship_resolver_edges.2.1
    (.str "9") (.str "1")

theorem mapM_ok_mem {α β : Type} (f : α → Except PyErr β) :
    ∀ (l : List α) (ys : List β), l.mapM f = .ok ys →
      ∀ y ∈ ys, ∃ x ∈ l, f x = .ok y
  | [], ys, h, y, hy => by
    rw [List.mapM_nil] at h
    cases h
    exact absurd hy (List.not_mem_nil y)
  | x :: t, ys, h, y, hy => by
    rw [List.mapM_cons] at h
    cases hfx : f x with
    | error e =>
      rw [hfx, exceptBind_error] at h
      cases h
    | ok b =>
      rw [hfx, exceptBind_ok] at h
      cases hmt : t.mapM f with
      | error e =>
        rw [hmt, exceptBind_error] at h
        cases h
      | ok bs =>
        rw [hmt, exceptBind_ok, exceptPure_eq] at h
        cases h
        rcases List.mem_cons.mp hy with heq | hmem
        · subst heq
          exact ⟨x, List.mem_cons_self x t, hfx⟩
        · rcases mapM_ok_mem f t bs hmt y hmem with ⟨x', hx', hfx'⟩
          exact ⟨x', List.mem_cons_of_mem x hx', hfx'⟩

theorem mkNode_fields {rel : RelMap} {s c : PyDict} {kv : JSON × JSON} {n : GraphNode}
    (h : mkNode rel s c kv = .ok n) :
    n.id = kv.1 ∧ n.related_threads = (relGet rel kv.1).filter (fun r => r != kv.1) := by
  unfold mkNode at h
  cases hst : aggregateStats kv.2 with
  | error e =>
    rw [hst, exceptBind_error] at h
    cases h
  | ok st =>
    rw [hst, exceptBind_ok, exceptPure_eq] at h
    cases h
    exact ⟨rfl, rfl⟩

/-- C8: every assembled GraphNode's related_threads list is exactly the list
recorded against its identifier in the relation map with the node's own
identifier filtered out, so a node never lists itself; in particular a
thread whose only embed reference targets itself gets an empty
related_threads list. -/
theorem C8_related_threads_exclude_self :
    (∀ (td s c : PyDict) (nodes : List GraphNode) (rel : RelMap),
      buildRelated td = .ok rel → process_threads td s c = .ok nodes →
      ∀ n ∈ nodes,
        n.related_threads = (relGet rel n.id).filter (fun r => r != n.id) ∧
        n.id ∉ n.related_threads) ∧
    process_threads
      [(.str "1", .arr [.obj [("id", .str "1"),
        ("metadata", .obj [("embed",
          .obj [("type", .str "embed"), ("id", .str "1")])])]])]
      [] [] =
      .ok [{ id := .str "1",
             url := "https://twitter.com/Recuenco/status/1",
             replies := 0, likes := 0, bookmarks := 0, views := 0,
             summary := .str "", categories := .arr [],
             related_threads := [] }] := by
  refine ⟨?_, rfl⟩
  intro td s c nodes rel hrel hpt n hn
  unfold process_threads at hpt
  rw [hrel, exceptBind_ok] at hpt
  rcases mapM_ok_mem (mkNode rel s c) td nodes hpt n hn with ⟨kv, hkv, hmk⟩
  rcases mkNode_fields hmk with ⟨hid, hrelated⟩
  constructor
  · rw [hrelated, hid]
  · intro hmem
    rw [hrelated] at hmem
    have hne := (List.mem_filter.mp hmem).2
    rw [hid] at hne
    simp at hne

/-- C8 witness: the self-exclusion property applied to the concrete
self-referencing one-thread database. -/
theorem C8_related_threads_exclude_self_witness :
    ({ id := .str "1",
       url := "https://twitter.com/Recuenco/status/1",
       replies := 0, likes := 0, bookmarks := 0, views := 0,
       summary := .str "", categories := .arr [],
       related_threads := [] } : GraphNode).related_threads =
      (relGet [(.str "1", [.str "1"])] (.str "1")).filter
        (fun r => r != JSON.str "1") ∧
    (JSON.str "1") ∉
      ({ id := .str "1",
         url := "https://twitter.com/Recuenco/status/1",
         replies := 0, likes := 0, bookmarks := 0, views := 0,
         summary := .str "", categories := .arr [],
         related_threads := [] } : GraphNode).related_threads :=
  C8_related_threads_exclude_self.1
    [(.str "1", .arr [.obj [("id", .str "1"),
      ("metadata", .obj [("embed",
        .obj [("type", .str "embed"), ("id", .str "1")])])]])]
    [] []
    [{ id := .str "1",
       url := "https://twitter.com/Recuenco/status/1",
       replies := 0, likes := 0, bookmarks := 0, views := 0,
       summary := .str "", categories := .arr [],
       related_threads := [] }]
    [(.str "1", [.str "1"])] rfl C8_related_threads_exclude_self.2
    _ (List.mem_singleton.mpr rfl)
